import Mathlib

/-!
Verification of the claude-teams-dashboard analytics layer.

This file gives a shallow embedding of the data model and operations of
`src/data_loader.py` and `src/analytics.py`: pandas DataFrames become lists
of typed records, groupby/merge become explicit list operations with the
exact key, fill and sort semantics of the source, and Python floats are
modelled as exact rationals.  Theorems below settle the frozen claims about
this program.
-/

set_option maxHeartbeats 1000000

namespace Dashboard

/-! ## Timestamps and the Gregorian / ISO-8601 calendar

Message timestamps carry a Gregorian date plus a second-of-day used only for
ordering (`sort_values('created_at')`).  `pandas` exposes `.dt.year`
(calendar year) and `.dt.isocalendar().week` (ISO-8601 week number); both are
modelled below.
-/

structure Timestamp where
  year : Nat
  month : Nat
  day : Nat
  tod : Nat
deriving DecidableEq, Repr

/-- Linear key used for ordering timestamps (valid for dates of the
Gregorian calendar: month ≤ 12, day ≤ 31, tod < 100000). -/
def Timestamp.key (t : Timestamp) : Nat :=
  ((t.year * 16 + t.month) * 32 + t.day) * 100000 + t.tod

def isLeap (y : Nat) : Bool :=
  (y % 4 == 0 && y % 100 != 0) || (y % 400 == 0)

/-- Length of month `m` (1-indexed) in year `y`. -/
def monthLength (y : Nat) (m : Nat) : Nat :=
  match m with
  | 1 => 31 | 2 => if isLeap y then 29 else 28 | 3 => 31 | 4 => 30
  | 5 => 31 | 6 => 30 | 7 => 31 | 8 => 31
  | 9 => 30 | 10 => 31 | 11 => 30 | 12 => 31
  | _ => 0

/-- Days in year `y` strictly before month `m`. -/
def daysBeforeMonth (y : Nat) : Nat → Nat
  | 0 => 0
  | 1 => 0
  | m + 1 => daysBeforeMonth y m + monthLength y m

/-- Ordinal day of the year (1-based). -/
def dayOfYear (y m d : Nat) : Nat := daysBeforeMonth y m + d

/-- Days of the proleptic Gregorian calendar strictly before year `y`. -/
def daysBeforeYear (y : Nat) : Nat :=
  365 * (y - 1) + (y - 1) / 4 - (y - 1) / 100 + (y - 1) / 400

/-- Rata die: day count with 0001-01-01 = 1. -/
def rataDie (y m d : Nat) : Nat := daysBeforeYear y + dayOfYear y m d

/-- ISO weekday, Monday = 1 .. Sunday = 7 (0001-01-01 was a Monday). -/
def isoWeekday (y m d : Nat) : Nat := (rataDie y m d - 1) % 7 + 1

/-- Number of ISO weeks in year `y` (53 iff Jan 1 or Dec 31 is a Thursday). -/
def isoWeeksInYear (y : Nat) : Nat :=
  if isoWeekday y 1 1 == 4 || isoWeekday y 12 31 == 4 then 53 else 52

/-- ISO-8601 (year, week) pair of a Gregorian date, as returned by
`datetime.isocalendar()` / pandas `.dt.isocalendar()`. -/
def isoWeekPair (y m d : Nat) : Nat × Nat :=
  let dow := isoWeekday y m d
  let doy := dayOfYear y m d
  let w := (doy + 10 - dow) / 7
  if w == 0 then (y - 1, isoWeeksInYear (y - 1))
  else if w == 53 && isoWeeksInYear y == 52 then (y + 1, 1)
  else (y, w)

/-- ISO week number of a timestamp: pandas `.dt.isocalendar().week`. -/
def Timestamp.isoWeek (t : Timestamp) : Nat := (isoWeekPair t.year t.month t.day).2

/-- ISO year of a timestamp: pandas `.dt.isocalendar().year`. -/
def Timestamp.isoYear (t : Timestamp) : Nat := (isoWeekPair t.year t.month t.day).1

/-! ## Table rows (`data_loader.py` flat tables) -/

/-- One row of the users table (`users.json`, `uuid` renamed `user_uuid`). -/
structure UserRow where
  user_uuid : String
  full_name : String
  email : String
deriving DecidableEq, Repr

/-- One row of the conversations table built by `load_conversations`. -/
structure ConvRow where
  conv_uuid : String
  name : String
  summary : String
  created_at : Timestamp
  updated_at : Timestamp
  user_uuid : String
  message_count : Nat
deriving DecidableEq, Repr

/-- One row of the messages table built by `load_conversations`.
`text` is `Option String`: `none` models a missing/NaN text cell. -/
structure MsgRow where
  msg_uuid : String
  conv_uuid : String
  user_uuid : String
  sender : String
  text : Option String
  created_at : Timestamp
  has_attachments : Bool
  has_files : Bool
deriving DecidableEq, Repr

/-- `DashboardData`: the three tables of one snapshot plus its name. -/
structure DashboardData where
  users : List UserRow
  conversations : List ConvRow
  messages : List MsgRow
  snapshot_name : String
deriving DecidableEq, Repr

/-! ## Generic list machinery shared by several operations -/

/-- Fuel-indexed worker for `dedupByKey`; the fuel is always at least the
length of the list, so the zero-fuel branch is never reached. -/
def dedupGo [BEq κ] (key : α → κ) : Nat → List α → List α
  | _, [] => []
  | 0, _ :: _ => []
  | n + 1, a :: as => a :: dedupGo key n (as.filter (fun b => key b != key a))

/-- `drop_duplicates(subset=[key], keep='first')`: keep a row iff no earlier
row has the same key. -/
def dedupByKey [BEq κ] (key : α → κ) (l : List α) : List α :=
  dedupGo key l.length l

/-- Pandas left merge on a string key: every left row is kept; rows with no
right match get a missing (`none`) right side, rows with several matches are
duplicated. -/
def leftMergeOn (k₁ : α → String) (k₂ : β → String) (ls : List α) (rs : List β) :
    List (α × Option β) :=
  ls.flatMap (fun a =>
    match rs.filter (fun b => k₂ b == k₁ a) with
    | [] => [(a, none)]
    | ms => ms.map (fun b => (a, some b)))

/-- Insertion into a list sorted by the Boolean preorder `le`. -/
def insertLe (le : α → α → Bool) (a : α) : List α → List α
  | [] => [a]
  | b :: bs => if le a b then a :: b :: bs else b :: insertLe le a bs

/-- Insertion sort by the Boolean preorder `le` (models `sort_values` /
`list.sort`; stability is irrelevant to the claims proved here). -/
def sortByLe (le : α → α → Bool) : List α → List α
  | [] => []
  | a :: as => insertLe le a (sortByLe le as)

/-! ## `UsageAnalytics.get_user_summary` -/

/-- The sender columns of `msg_by_sender`
(`messages.groupby(['user_uuid','sender']).size().unstack(fill_value=0)`):
one column per distinct sender value occurring in the messages table.  When
the messages table is empty the merge is skipped and there are no sender
columns at all. -/
def senderColumns (d : DashboardData) : List String :=
  dedupByKey id (d.messages.map (·.sender))

/-- One row of the `get_user_summary` result frame.  `senders` is the
assoc list of sender columns (column name, count); a column is present in a
row iff it is present in the frame, i.e. iff some message of the snapshot
has that sender. -/
structure SummaryRow where
  user_uuid : String
  full_name : String
  total_conversations : Nat
  total_messages : Nat
  senders : List (String × Nat)
deriving DecidableEq, Repr

/-- `UsageAnalytics.get_user_summary`: per user, the count of conversations,
the sum of their `message_count`, and the per-sender message counts; users
absent from the conversation/message tables get NaN from the left merges,
turned into 0 by `fillna(0)` and `astype(int)`.

Modelling boundary: this typed embedding gives every table its schema, so
it models the source on snapshots whose conversations table is non-empty.
When `conversations.json` is an empty list the source builds
`pd.DataFrame([])` with no columns at all and the
`conversations.groupby('user_uuid')` call raises `KeyError` — an error path
outside this embedding; theorems about this function therefore assume a
non-empty conversations table where that boundary matters. -/
def get_user_summary (d : DashboardData) : List SummaryRow :=
  d.users.map (fun u =>
    let convs := d.conversations.filter (fun c => c.user_uuid == u.user_uuid)
    { user_uuid := u.user_uuid
      full_name := u.full_name
      total_conversations := convs.length
      total_messages := (convs.map (·.message_count)).sum
      senders := (senderColumns d).map (fun s =>
        (s, (d.messages.filter
              (fun m => m.user_uuid == u.user_uuid && m.sender == s)).length)) })

/-! ## `UsageAnalytics.get_overall_stats` -/

structure OverallStats where
  total_users : Nat
  total_conversations : Nat
  total_messages : Nat
  avg_messages_per_user : ℚ
  avg_messages_per_conv : ℚ
  date_range_start : Option Timestamp
  date_range_end : Option Timestamp
deriving DecidableEq, Repr

/-- Minimum of a timestamp list by chronological key (`Series.min`). -/
def tsMin : List Timestamp → Option Timestamp
  | [] => none
  | t :: ts => match tsMin ts with
    | none => some t
    | some u => some (if t.key ≤ u.key then t else u)

/-- Maximum of a timestamp list by chronological key (`Series.max`). -/
def tsMax : List Timestamp → Option Timestamp
  | [] => none
  | t :: ts => match tsMax ts with
    | none => some t
    | some u => some (if t.key ≥ u.key then t else u)

/-- `UsageAnalytics.get_overall_stats`. -/
def get_overall_stats (d : DashboardData) : OverallStats :=
  { total_users := d.users.length
    total_conversations := d.conversations.length
    total_messages := d.messages.length
    avg_messages_per_user :=
      if d.users.length > 0 then (d.messages.length : ℚ) / d.users.length else 0
    avg_messages_per_conv :=
      if d.conversations.length > 0 then
        (d.messages.length : ℚ) / d.conversations.length else 0
    date_range_start := tsMin (d.messages.map (·.created_at))
    date_range_end := tsMax (d.messages.map (·.created_at)) }

/-! ## `UsageAnalytics.get_weekly_usage`

The source sets `df['week'] = df['created_at'].dt.isocalendar().week` (the
ISO-8601 week number) but `df['year'] = df['created_at'].dt.year` (the plain
calendar year), then groups by `['year','week']`; `groupby` sorts the keys
ascending. -/

/-- The grouping key of `get_weekly_usage`: calendar year paired with the
ISO week number. -/
def weeklyKey (m : MsgRow) : Nat × Nat := (m.created_at.year, m.created_at.isoWeek)

structure WeeklyRow where
  year : Nat
  week : Nat
  messages : Nat
  active_users : Nat
deriving DecidableEq, Repr

/-- Ascending lexicographic order on (year, week) keys, as produced by
`groupby(['year','week'])`. -/
def pairLe (a b : Nat × Nat) : Bool :=
  a.1 < b.1 || (a.1 == b.1 && a.2 ≤ b.2)

/-- `UsageAnalytics.get_weekly_usage`: per (calendar year, ISO week) bucket,
the message count and the number of distinct senders (`nunique`). -/
def get_weekly_usage (d : DashboardData) : List WeeklyRow :=
  if d.messages.isEmpty then []
  else
    let keys := sortByLe pairLe (dedupByKey id (d.messages.map weeklyKey))
    keys.map (fun k =>
      let bucket := d.messages.filter (fun m => weeklyKey m == k)
      { year := k.1
        week := k.2
        messages := bucket.length
        active_users := (dedupByKey id (bucket.map (·.user_uuid))).length })

/-! ## `UsageAnalytics.search_conversations`

`df['text'].str.contains(query, case=False, na=False)` interprets `query`
as a Python regular expression (`regex=True` is the pandas default) matched
case-insensitively anywhere in the string, with missing text giving `False`.
The regular-expression engine is modelled for the pattern subset consisting
of literal characters, the any-character metacharacter `.`, and
backslash-escaped literal characters. -/

/-- One token of a (modelled) Python regex pattern. -/
inductive RTok where
  | lit : Char → RTok
  | dot : RTok
deriving DecidableEq, Repr

/-- Worker for `parseRe`; the Boolean records a pending backslash escape. -/
def parseReAux : Bool → List Char → List RTok
  | _, [] => []
  | true, c :: rest => .lit c :: parseReAux false rest
  | false, c :: rest =>
    if c == '\\' then parseReAux true rest
    else if c == '.' then .dot :: parseReAux false rest
    else .lit c :: parseReAux false rest

/-- Pattern compilation for the modelled fragment of Python regex syntax:
`.` is the any-character metacharacter, a backslash makes the next
character a literal, every other character is a literal.

Modelling boundary: Python's remaining regex syntax — the quantifiers
`*`/`+`/`?`/`\x7b m,n \x7d`, character classes `[...]`, groups `(...)`,
alternation `|`, the anchors `^`/`$`, and the class/anchor escapes such as
`\d`/`\b` — is NOT modelled; on patterns using any of it (or on malformed
patterns, where `re` raises) this model diverges from the source.  Every
theorem below that speaks about matching therefore restricts the query to
characters outside `reMetachars`. -/
def parseRe (l : List Char) : List RTok := parseReAux false l

/-- Match a token list against a prefix of the text. -/
def matchToks : List RTok → List Char → Bool
  | [], _ => true
  | _ :: _, [] => false
  | .lit c :: ts, x :: xs => c == x && matchToks ts xs
  | .dot :: ts, _ :: xs => matchToks ts xs

/-- `re.search` semantics: the pattern matches at some position of the text. -/
def reSearch (ts : List RTok) : List Char → Bool
  | [] => matchToks ts []
  | c :: cs => matchToks ts (c :: cs) || reSearch ts cs

/-- ASCII-style case folding used to model `case=False` / `re.IGNORECASE`. -/
def lowerChars (l : List Char) : List Char := l.map Char.toLower

/-- `Series.str.contains(query, case=False)` for one cell: case-insensitive
regular-expression search (`regex=True` is the pandas default).  Faithful
to the source exactly for patterns whose case-folded characters avoid
`reMetachars` (literals and `.` only); see the boundary note on
`parseRe`. -/
def pyContains (pat text : String) : Bool :=
  reSearch (parseRe (lowerChars pat.toList)) (lowerChars text.toList)

/-- Descending chronological order used by
`sort_values('created_at', ascending=False)`. -/
def createdDescLe (a b : MsgRow × Option String) : Bool :=
  b.1.created_at.key ≤ a.1.created_at.key

/-- `UsageAnalytics.search_conversations`: optional user restriction (the
Python truthiness test `if user_uuid:` skips the filter for `None` and for
the empty string), case-insensitive regex filter on text with missing text
never matching, left merge with the user table for the display name, and a
descending sort on the message timestamp.  Result rows pair the message with
the merged (possibly missing) `full_name`. -/
def search_conversations (d : DashboardData) (query : String)
    (user_uuid : Option String) : List (MsgRow × Option String) :=
  if d.messages.isEmpty then []
  else
    let df := match user_uuid with
      | some u => if u == "" then d.messages
                  else d.messages.filter (fun m => m.user_uuid == u)
      | none => d.messages
    let results := df.filter (fun m =>
      match m.text with
      | some t => pyContains query t
      | none => false)
    let merged := (leftMergeOn (·.user_uuid) (·.user_uuid) results d.users).map
      (fun p => (p.1, p.2.map (·.full_name)))
    sortByLe createdDescLe merged

/-! ## `SnapshotComparison` -/

/-- The zero-baseline percent-change convention of `compare_overall_stats`. -/
def calc_change (old new : ℚ) : ℚ :=
  if old = 0 then (if new = 0 then 0 else 100)
  else ((new - old) / old) * 100

/-- The nested dict returned by `compare_overall_stats`, with each section
modelled as an assoc list mirroring the dict keys in source order.  Note the
`users` section as built by the source has no `change_pct` entry. -/
structure OverallComparison where
  snapshot1 : String
  snapshot2 : String
  users : List (String × ℚ)
  conversations : List (String × ℚ)
  messages : List (String × ℚ)
deriving DecidableEq, Repr

/-- `SnapshotComparison.compare_overall_stats` (`data1` = before,
`data2` = after). -/
def compare_overall_stats (d1 d2 : DashboardData) : OverallComparison :=
  let s1 := get_overall_stats d1
  let s2 := get_overall_stats d2
  { snapshot1 := d1.snapshot_name
    snapshot2 := d2.snapshot_name
    users :=
      [("before", s1.total_users), ("after", s2.total_users),
       ("change", (s2.total_users : ℚ) - s1.total_users)]
    conversations :=
      [("before", s1.total_conversations), ("after", s2.total_conversations),
       ("change", (s2.total_conversations : ℚ) - s1.total_conversations),
       ("change_pct", calc_change s1.total_conversations s2.total_conversations)]
    messages :=
      [("before", s1.total_messages), ("after", s2.total_messages),
       ("change", (s2.total_messages : ℚ) - s1.total_messages),
       ("change_pct", calc_change s1.total_messages s2.total_messages)] }

/-- One row of the `compare_user_summary` merged frame (the columns the
source reads or writes; `_prev` columns are `none` where the left merge
produced NaN). -/
structure UserCompRow where
  user_uuid : String
  full_name : String
  total_conversations : Nat
  total_messages : Nat
  total_conversations_prev : Option Nat
  total_messages_prev : Option Nat
  conversations_change : ℚ
  messages_change : ℚ
  messages_change_pct : ℚ
deriving DecidableEq, Repr

/-- `SnapshotComparison.compare_user_summary`: left merge of the "after"
summary with the "before" summary on `user_uuid`; the change columns
subtract `fillna(0)` of the `_prev` columns, and the percent change is 0
whenever `total_messages_prev > 0` fails (including the NaN row of a user
absent from "before", since `NaN > 0` is false). -/
def compare_user_summary (d1 d2 : DashboardData) : List UserCompRow :=
  let s1 := get_user_summary d1
  let s2 := get_user_summary d2
  (leftMergeOn (·.user_uuid) (·.user_uuid) s2 s1).map (fun p =>
    let r2 := p.1
    let prevConv := p.2.map (·.total_conversations)
    let prevMsg := p.2.map (·.total_messages)
    { user_uuid := r2.user_uuid
      full_name := r2.full_name
      total_conversations := r2.total_conversations
      total_messages := r2.total_messages
      total_conversations_prev := prevConv
      total_messages_prev := prevMsg
      conversations_change := (r2.total_conversations : ℚ) - (prevConv.getD 0 : Nat)
      messages_change := (r2.total_messages : ℚ) - (prevMsg.getD 0 : Nat)
      messages_change_pct :=
        match prevMsg with
        | some q => if (q : ℚ) > 0 then
            (((r2.total_messages : ℚ) - q) / q) * 100 else 0
        | none => 0 })

/-- `SnapshotComparison.get_inactive_users`: rows of the "before" user table
whose identifier is in the set difference (senders of "before" messages) \
(senders of "after" messages). -/
def get_inactive_users (d1 d2 : DashboardData) : List UserRow :=
  d1.users.filter (fun u =>
    d1.messages.any (fun m => m.user_uuid == u.user_uuid) &&
    !(d2.messages.any (fun m => m.user_uuid == u.user_uuid)))

/-! ## The loader (`DataLoader.load_conversations` / `load_all`) -/

/-- One content block of a chat turn. -/
structure ContentJson where
  type : String
  text : String
deriving DecidableEq, Repr

/-- One chat turn of `conversations.json`.  `attachments` and `files`
stand for the lengths of the corresponding JSON lists (only
`len(...) > 0` is observed). -/
structure MsgJson where
  uuid : String
  sender : String
  text : String
  content : List ContentJson
  created_at : Timestamp
  attachments : Nat
  files : Nat
deriving DecidableEq, Repr

/-- One conversation object of `conversations.json` (with the owning
account identifier flattened out of the nested `account` object). -/
structure ConvJson where
  uuid : String
  name : String
  summary : String
  account_uuid : String
  created_at : Timestamp
  updated_at : Timestamp
  chat_messages : List MsgJson
deriving DecidableEq, Repr

/-- Message-text extraction policy of the loader: prefer the direct `text`
field; if it is falsy and the content list is non-empty, space-join the
texts of the blocks of type `"text"`. -/
def extract_text (m : MsgJson) : String :=
  if m.text != "" then m.text
  else if !m.content.isEmpty then
    String.intercalate " " ((m.content.filter (fun c => c.type == "text")).map (·.text))
  else ""

/-- `DataLoader.load_conversations`: one conversation row per source record
with `message_count := len(chat_messages)`, and one message row per chat
turn with the owning conversation and account identifiers denormalized in. -/
def load_conversations (raw : List ConvJson) : List ConvRow × List MsgRow :=
  (raw.map (fun c =>
    { conv_uuid := c.uuid
      name := if c.name == "" then "(제목 없음)" else c.name
      summary := c.summary
      created_at := c.created_at
      updated_at := c.updated_at
      user_uuid := c.account_uuid
      message_count := c.chat_messages.length }),
   raw.flatMap (fun c => c.chat_messages.map (fun m =>
    { msg_uuid := m.uuid
      conv_uuid := c.uuid
      user_uuid := c.account_uuid
      sender := m.sender
      text := some (extract_text m)
      created_at := m.created_at
      has_attachments := m.attachments > 0
      has_files := m.files > 0 })))

/-- `DataLoader.load_all` minus the file IO: assemble one snapshot from the
parsed user rows and raw conversation objects. -/
def mk_snapshot (users : List UserRow) (raw : List ConvJson)
    (name : String) : DashboardData :=
  { users := users
    conversations := (load_conversations raw).1
    messages := (load_conversations raw).2
    snapshot_name := name }

/-! ## `load_cumulative_data` -/

/-- The cumulative dataset: merged tables in which every row is tagged with
the name of the snapshot it came from (the `snapshot` column added before
`pd.concat`). -/
structure CumulativeData where
  users : List (UserRow × String)
  conversations : List (ConvRow × String)
  messages : List (MsgRow × String)
  snapshot_name : String
deriving DecidableEq, Repr

/-- Processing order of `find_snapshot_folders`:
`sort(key=lambda x: x.name, reverse=True)`, i.e. folder-name descending
(newest first for date-stamped names). -/
def nameDescLe (a b : String × DashboardData) : Bool := !(decide (a.1 < b.1))

/-- `load_cumulative_data`: load every snapshot folder newest-first, tag
each row with its snapshot name, concatenate, and
`drop_duplicates(subset=[key], keep='first')` each table, so the
first-seen (most-recent-snapshot) row wins.  The filesystem walk is
abstracted to the input list of (folder name, loaded snapshot) pairs. -/
def load_cumulative_data (snaps : List (String × DashboardData)) :
    Option CumulativeData :=
  if snaps.isEmpty then none
  else
    let folders := sortByLe nameDescLe snaps
    some
      { users := dedupByKey (fun p => p.1.user_uuid)
          (folders.flatMap (fun f => f.2.users.map (fun u => (u, f.1))))
        conversations := dedupByKey (fun p => p.1.conv_uuid)
          (folders.flatMap (fun f => f.2.conversations.map (fun c => (c, f.1))))
        messages := dedupByKey (fun p => p.1.msg_uuid)
          (folders.flatMap (fun f => f.2.messages.map (fun m => (m, f.1))))
        snapshot_name := "전체 누적" }

/-- Data for the C5 witness: one zero-activity user alongside a user with a
conversation of two turns and a human and an assistant message, so the
conversations table is non-empty and both sender columns exist. -/
def c5D : DashboardData :=
  ⟨[⟨"u0", "Zero", "z@x"⟩, ⟨"u1", "Alice", "a@x"⟩],
   [⟨"c1", "chat", "", ⟨2025, 1, 1, 0⟩, ⟨2025, 1, 2, 0⟩, "u1", 2⟩],
   [⟨"m1", "c1", "u1", "human", some "hi", ⟨2025, 1, 1, 0⟩, false, false⟩,
    ⟨"m2", "c1", "u1", "assistant", some "yo", ⟨2025, 1, 2, 0⟩, false, false⟩],
   "s"⟩

/-- The zero-activity user's summary row in `c5D`. -/
def c5row : SummaryRow :=
  ⟨"u0", "Zero", 0, 0, [("human", 0), ("assistant", 0)]⟩

/-- Data for the C4 witness: a single message on 2024-12-30 (ISO week 1 of
ISO year 2025). -/
def c4D : DashboardData :=
  ⟨[⟨"u1", "Alice", "a@x"⟩], [],
   [⟨"m1", "c1", "u1", "human", some "hello", ⟨2024, 12, 30, 0⟩,
     false, false⟩], "snap"⟩

theorem dedupGo_fuel [BEq κ] (key : α → κ) :
    ∀ (l : List α) (n m : Nat), l.length ≤ n → l.length ≤ m →
      dedupGo key n l = dedupGo key m l
  | [], n, m, _, _ => by cases n <;> cases m <;> rfl
  | a :: as, n, m, hn, hm => by
    cases n with
    | zero => simp at hn
    | succ n' =>
      cases m with
      | zero => simp at hm
      | succ m' =>
        show a :: dedupGo key n' (as.filter (fun b => key b != key a))
            = a :: dedupGo key m' (as.filter (fun b => key b != key a))
        congr 1
        exact dedupGo_fuel key (as.filter (fun b => key b != key a)) n' m'
          (le_trans (List.length_filter_le _ _)
            (Nat.le_of_succ_le_succ (by simpa using hn)))
          (le_trans (List.length_filter_le _ _)
            (Nat.le_of_succ_le_succ (by simpa using hm)))
termination_by l => l.length
decreasing_by
  all_goals
    simp only [List.length_cons]
    exact Nat.lt_succ_of_le (List.length_filter_le _ _)

theorem dedupByKey_nil [BEq κ] (key : α → κ) : dedupByKey key ([] : List α) = [] :=
  rfl

theorem dedupByKey_cons [BEq κ] (key : α → κ) (a : α) (as : List α) :
    dedupByKey key (a :: as)
      = a :: dedupByKey key (as.filter (fun b => key b != key a)) := by
  show dedupGo key (as.length + 1) (a :: as) = _
  rw [show dedupGo key (as.length + 1) (a :: as)
      = a :: dedupGo key as.length (as.filter (fun b => key b != key a)) from rfl]
  congr 1
  exact dedupGo_fuel key _ as.length _ (List.length_filter_le _ _) (le_refl _)

theorem dedupByKey_subset [BEq κ] (key : α → κ) :
    ∀ l : List α, dedupByKey key l ⊆ l
  | [] => by simp [dedupByKey_nil]
  | a :: as => by
    rw [dedupByKey_cons]
    intro x hx
    rcases List.mem_cons.mp hx with h | h
    · exact h ▸ List.mem_cons_self a as
    · exact List.mem_cons_of_mem a
        (List.mem_of_mem_filter (dedupByKey_subset key (as.filter _) h))
termination_by l => l.length
decreasing_by
  all_goals
    simp only [List.length_cons]
    exact Nat.lt_succ_of_le (List.length_filter_le _ _)

theorem mem_map_key_dedupByKey [BEq κ] [LawfulBEq κ] (key : α → κ) :
    ∀ (l : List α) (k : κ),
      k ∈ (dedupByKey key l).map key ↔ k ∈ l.map key
  | [], k => by simp [dedupByKey_nil]
  | a :: as, k => by
    rw [dedupByKey_cons]
    by_cases hk : k = key a
    · simp [hk]
    · simp only [List.map_cons, List.mem_cons,
        mem_map_key_dedupByKey key (as.filter _) k]
      constructor
      · rintro (h | h)
        · exact absurd h hk
        · rcases List.mem_map.mp h with ⟨b, hb, hbk⟩
          exact Or.inr (List.mem_map.mpr ⟨b, List.mem_of_mem_filter hb, hbk⟩)
      · rintro (h | h)
        · exact absurd h hk
        · rcases List.mem_map.mp h with ⟨b, hb, hbk⟩
          refine Or.inr (List.mem_map.mpr ⟨b, List.mem_filter.mpr ⟨hb, ?_⟩, hbk⟩)
          simp [bne_iff_ne]
          intro hba
          exact hk (hbk ▸ hba ▸ rfl)
termination_by l => l.length
decreasing_by
  all_goals
    simp only [List.length_cons]
    exact Nat.lt_succ_of_le (List.length_filter_le _ _)

theorem nodup_map_key_dedupByKey [BEq κ] [LawfulBEq κ] (key : α → κ) :
    ∀ l : List α, ((dedupByKey key l).map key).Nodup
  | [] => by simp [dedupByKey_nil]
  | a :: as => by
    rw [dedupByKey_cons]
    refine List.nodup_cons.mpr ⟨?_, nodup_map_key_dedupByKey key (as.filter _)⟩
    intro hmem
    rw [mem_map_key_dedupByKey] at hmem
    rcases List.mem_map.mp hmem with ⟨b, hb, hbk⟩
    have := (List.mem_filter.mp hb).2
    rw [bne_iff_ne] at this
    exact this hbk
termination_by l => l.length
decreasing_by
  all_goals
    simp only [List.length_cons]
    exact Nat.lt_succ_of_le (List.length_filter_le _ _)

theorem find?_filter_of_imp (p q : α → Bool) (himp : ∀ x, p x = true → q x = true) :
    ∀ l : List α, (l.filter q).find? p = l.find? p := by
  intro l
  induction l with
  | nil => rfl
  | cons a as ih =>
    by_cases hq : q a = true
    · simp only [List.filter_cons, hq, if_true]
      by_cases hp : p a = true
      · rw [List.find?_cons_of_pos _ hp, List.find?_cons_of_pos _ hp]
      · have hp' : p a = false := by simpa using hp
        rw [List.find?_cons_of_neg _ (by simp [hp']),
            List.find?_cons_of_neg _ (by simp [hp'])]
        exact ih
    · have hp : p a = false := by
        by_contra h
        have : p a = true := by simpa using h
        exact hq (himp a this)
      simp only [List.filter_cons, hq, if_false]
      rw [List.find?_cons_of_neg _ (by simp [hp])]
      exact ih

theorem mem_dedupByKey_iff_find? [BEq κ] [LawfulBEq κ] (key : α → κ) :
    ∀ (l : List α) (a : α),
      a ∈ dedupByKey key l ↔ l.find? (fun b => key b == key a) = some a
  | [], a => by simp [dedupByKey_nil]
  | c :: cs, a => by
    rw [dedupByKey_cons]
    by_cases hk : key a = key c
    · constructor
      · intro h
        rcases List.mem_cons.mp h with h | h
        · subst h
          rw [List.find?_cons_of_pos _ (by simp [hk])]
        · exfalso
          have hmem := dedupByKey_subset key _ h
          have := (List.mem_filter.mp hmem).2
          rw [bne_iff_ne] at this
          exact this hk
      · intro h
        rw [List.find?_cons_of_pos _ (by simp [hk])] at h
        exact List.mem_cons.mpr (Or.inl (Option.some.inj h).symm)
    · have hfilter :
          (cs.filter (fun b => key b != key c)).find? (fun b => key b == key a)
            = cs.find? (fun b => key b == key a) := by
        apply find?_filter_of_imp
        intro x hx
        have hxa : key x = key a := by simpa using hx
        simp [bne_iff_ne, hxa, hk]
      constructor
      · intro h
        rcases List.mem_cons.mp h with h | h
        · exact absurd (h ▸ rfl : key a = key c) hk
        · have := (mem_dedupByKey_iff_find? key (cs.filter _) a).mp h
          rw [hfilter] at this
          rw [List.find?_cons_of_neg _ (by simp [Ne.symm hk])]
          exact this
      · intro h
        rw [List.find?_cons_of_neg _ (by simp [Ne.symm hk])] at h
        refine List.mem_cons.mpr (Or.inr ?_)
        rw [mem_dedupByKey_iff_find? key (cs.filter _) a, hfilter]
        exact h
termination_by l => l.length
decreasing_by
  all_goals
    simp only [List.length_cons]
    exact Nat.lt_succ_of_le (List.length_filter_le _ _)

theorem filter_keyed_eq_toList_find? (k₂ : β → String) (k : String) :
    ∀ rs : List β, ((rs.map k₂).Nodup) →
      rs.filter (fun b => k₂ b == k) = (rs.find? (fun b => k₂ b == k)).toList := by
  intro rs
  induction rs with
  | nil => intro _; rfl
  | cons b bs ih =>
    intro hnd
    rw [List.map_cons, List.nodup_cons] at hnd
    obtain ⟨hb, hbs⟩ := hnd
    by_cases hbk : (k₂ b == k) = true
    · rw [List.find?_cons_of_pos (p := fun x => k₂ x == k) _ hbk]
      have hnone : bs.filter (fun x => k₂ x == k) = [] := by
        apply List.filter_eq_nil_iff.mpr
        intro x hx hxk
        exact hb (List.mem_map.mpr ⟨x, hx, by
          have h1 : k₂ x = k := by simpa using hxk
          have h2 : k₂ b = k := by simpa using hbk
          rw [h1, h2]⟩)
      simp only [List.filter_cons, hbk, if_true, hnone, Option.toList]
    · have hbk' : (k₂ b == k) = false := by simpa using hbk
      rw [List.find?_cons_of_neg (p := fun x => k₂ x == k) _ (by simp [hbk'])]
      simp only [List.filter_cons, hbk', Bool.false_eq_true, if_false]
      exact ih hbs

theorem leftMergeOn_eq_map_find? (k₁ : α → String) (k₂ : β → String)
    (ls : List α) (rs : List β) (hnd : (rs.map k₂).Nodup) :
    leftMergeOn k₁ k₂ ls rs
      = ls.map (fun a => (a, rs.find? (fun b => k₂ b == k₁ a))) := by
  induction ls with
  | nil => rfl
  | cons a as ih =>
    unfold leftMergeOn at ih ⊢
    rw [List.flatMap_cons]
    rw [filter_keyed_eq_toList_find? k₂ (k₁ a) rs hnd]
    cases hf : rs.find? (fun b => k₂ b == k₁ a) with
    | none => simp only [hf, Option.toList]; rw [ih]; simp [hf]
    | some b => simp only [hf, Option.toList]; rw [ih]; simp [hf]

theorem perm_insertLe (le : α → α → Bool) (a : α) :
    ∀ l : List α, (insertLe le a l).Perm (a :: l)
  | [] => List.Perm.refl _
  | b :: bs => by
    unfold insertLe
    by_cases h : le a b
    · simp [h]
    · simp only [h, if_false]
      exact ((perm_insertLe le a bs).cons b).trans (List.Perm.swap a b bs)

theorem perm_sortByLe (le : α → α → Bool) :
    ∀ l : List α, (sortByLe le l).Perm l
  | [] => List.Perm.refl _
  | a :: as =>
    (perm_insertLe le a (sortByLe le as)).trans ((perm_sortByLe le as).cons a)

theorem mem_sortByLe (le : α → α → Bool) (l : List α) (a : α) :
    a ∈ sortByLe le l ↔ a ∈ l :=
  (perm_sortByLe le l).mem_iff

theorem insertLe_cons_pos (le : α → α → Bool) (a b : α) (bs : List α)
    (h : le a b = true) : insertLe le a (b :: bs) = a :: b :: bs := by
  rw [show insertLe le a (b :: bs)
      = if le a b then a :: b :: bs else b :: insertLe le a bs from rfl, h]
  simp

theorem insertLe_cons_neg (le : α → α → Bool) (a b : α) (bs : List α)
    (h : le a b = false) : insertLe le a (b :: bs) = b :: insertLe le a bs := by
  rw [show insertLe le a (b :: bs)
      = if le a b then a :: b :: bs else b :: insertLe le a bs from rfl, h]
  simp

theorem chain'_insertLe (le : α → α → Bool)
    (htot : ∀ a b, le a b = true ∨ le b a = true) (a : α) :
    ∀ l : List α, List.Chain' (fun x y => le x y = true) l →
      List.Chain' (fun x y => le x y = true) (insertLe le a l)
  | [], _ => List.chain'_singleton a
  | b :: bs, h => by
    rcases Bool.eq_false_or_eq_true (le a b) with hab | hab
    · rw [insertLe_cons_pos le a b bs hab]
      exact List.Chain'.cons hab h
    · rw [insertLe_cons_neg le a b bs hab]
      have hba : le b a = true := (htot a b).resolve_left (by simp [hab])
      have htail := chain'_insertLe le htot a bs (List.Chain'.tail h)
      cases bs with
      | nil => exact List.chain'_pair.mpr hba
      | cons c cs =>
        refine List.chain'_cons'.mpr ⟨?_, htail⟩
        intro y hy
        rcases Bool.eq_false_or_eq_true (le a c) with hac | hac
        · rw [insertLe_cons_pos le a c cs hac, List.head?_cons,
            Option.mem_def, Option.some.injEq] at hy
          exact hy ▸ hba
        · rw [insertLe_cons_neg le a c cs hac, List.head?_cons,
            Option.mem_def, Option.some.injEq] at hy
          exact hy ▸ (List.chain'_cons.mp h).1

theorem chain'_sortByLe (le : α → α → Bool)
    (htot : ∀ a b, le a b = true ∨ le b a = true) :
    ∀ l : List α, List.Chain' (fun x y => le x y = true) (sortByLe le l)
  | [] => List.chain'_nil
  | a :: as => chain'_insertLe le htot a _ (chain'_sortByLe le htot as)

/-! Summation lemmas for the totals invariant. -/

theorem sum_map_add_nat (l : List α) (f g : α → Nat) :
    (l.map (fun x => f x + g x)).sum = (l.map f).sum + (l.map g).sum := by
  induction l with
  | nil => rfl
  | cons a as ih => simp only [List.map_cons, List.sum_cons, ih]; omega

theorem sum_indicator_of_nodup (users : List α) (key : α → String)
    (hnd : (users.map key).Nodup) (k : String) (hk : k ∈ users.map key)
    (x : Nat) :
    (users.map (fun u => if k = key u then x else 0)).sum = x := by
  induction users with
  | nil => simp at hk
  | cons u us ih =>
    rw [List.map_cons, List.nodup_cons] at hnd
    obtain ⟨hu, hus⟩ := hnd
    rw [List.map_cons, List.sum_cons]
    by_cases h : k = key u
    · subst h
      rw [if_pos rfl]
      have hzero : (us.map (fun v => if key u = key v then x else 0)).sum = 0 := by
        apply List.sum_eq_zero
        intro y hy
        rcases List.mem_map.mp hy with ⟨v, hv, hvy⟩
        rw [if_neg (fun hkv => hu (List.mem_map.mpr ⟨v, hv, hkv.symm⟩))] at hvy
        exact hvy.symm
      rw [hzero, Nat.add_zero]
    · rw [if_neg h, Nat.zero_add]
      have hk' : k ∈ us.map key := by
        rcases List.mem_map.mp hk with ⟨v, hv, hvk⟩
        rcases List.mem_cons.mp hv with rfl | hv'
        · exact absurd hvk.symm h
        · exact List.mem_map.mpr ⟨v, hv', hvk⟩
      exact ih hus hk'

/-- Summing a per-user partition of the conversation rows recovers the sum
over all conversation rows, provided user keys are unique and every
conversation's key is among them. -/
theorem sum_partition (users : List UserRow) (convs : List ConvRow)
    (hnd : (users.map (·.user_uuid)).Nodup)
    (hsub : ∀ c ∈ convs, c.user_uuid ∈ users.map (·.user_uuid)) :
    (users.map (fun u =>
      ((convs.filter (fun c => c.user_uuid == u.user_uuid)).map
        (·.message_count)).sum)).sum
      = (convs.map (·.message_count)).sum := by
  induction convs with
  | nil => simp
  | cons c cs ih =>
    have hstep : ∀ u : UserRow,
        ((((c :: cs).filter (fun x => x.user_uuid == u.user_uuid)).map
          (·.message_count)).sum)
          = (if c.user_uuid = u.user_uuid then c.message_count else 0)
            + (((cs.filter (fun x => x.user_uuid == u.user_uuid)).map
                (·.message_count)).sum) := by
      intro u
      by_cases h : c.user_uuid = u.user_uuid
      · simp [List.filter_cons, h]
      · simp [List.filter_cons, h]
    calc (users.map (fun u =>
            ((((c :: cs).filter (fun x => x.user_uuid == u.user_uuid)).map
              (·.message_count)).sum))).sum
        = (users.map (fun u =>
            (if c.user_uuid = u.user_uuid then c.message_count else 0)
            + (((cs.filter (fun x => x.user_uuid == u.user_uuid)).map
                (·.message_count)).sum))).sum := by
          apply congrArg
          exact List.map_congr_left (fun u _ => hstep u)
      _ = (users.map (fun u =>
            if c.user_uuid = u.user_uuid then c.message_count else 0)).sum
          + (users.map (fun u =>
            (((cs.filter (fun x => x.user_uuid == u.user_uuid)).map
              (·.message_count)).sum))).sum := by
          exact sum_map_add_nat users _ _
      _ = c.message_count + (cs.map (·.message_count)).sum := by
          rw [sum_indicator_of_nodup users (·.user_uuid) hnd c.user_uuid
            (hsub c (List.mem_cons_self c cs)) c.message_count]
          rw [ih (fun x hx => hsub x (List.mem_cons_of_mem c hx))]
      _ = ((c :: cs).map (·.message_count)).sum := by simp

/-- `List.lookup` in an assoc list built by tabulating a function over a
column list. -/
theorem lookup_map_pair (l : List String) (f : String → Nat) (s : String) :
    List.lookup s (l.map (fun c => (c, f c)))
      = if s ∈ l then some (f s) else none := by
  induction l with
  | nil => rfl
  | cons c cs ih =>
    by_cases h : s = c
    · subst h
      simp [List.lookup]
    · have h' : (s == c) = false := by simpa using h
      simp only [List.map_cons, List.lookup, h', ih]
      simp [h]

/-- The summary frame has exactly one row per user row, in order, with the
user's identifier. -/
theorem user_summary_map_uuid (d : DashboardData) :
    (get_user_summary d).map (·.user_uuid) = d.users.map (·.user_uuid) := by
  unfold get_user_summary
  rw [List.map_map]
  rfl

/-! Regular-expression / substring bridge lemmas. -/

/-- C1: `compare_overall_stats` computes every percent change it reports with
the fixed zero-baseline convention — `((after - before) / before) * 100` for a
nonzero baseline, exactly 0 for zero-to-zero, exactly 100 for
zero-to-nonzero; identical snapshots give all changes and percent changes 0,
and 0 → 5 conversations gives exactly 100. -/
theorem spec_c1_compare_overall_change_pct :
    (∀ d1 d2 : DashboardData,
      ((compare_overall_stats d1 d2).conversations.lookup "change_pct"
        = some (if ((get_overall_stats d1).total_conversations : ℚ) = 0 then
              (if ((get_overall_stats d2).total_conversations : ℚ) = 0
               then 0 else 100)
            else ((((get_overall_stats d2).total_conversations : ℚ)
                  - ((get_overall_stats d1).total_conversations : ℚ))
                  / ((get_overall_stats d1).total_conversations : ℚ)) * 100))
      ∧ ((compare_overall_stats d1 d2).messages.lookup "change_pct"
        = some (if ((get_overall_stats d1).total_messages : ℚ) = 0 then
              (if ((get_overall_stats d2).total_messages : ℚ) = 0
               then 0 else 100)
            else ((((get_overall_stats d2).total_messages : ℚ)
                  - ((get_overall_stats d1).total_messages : ℚ))
                  / ((get_overall_stats d1).total_messages : ℚ)) * 100)))
    ∧ (∀ d : DashboardData,
        (compare_overall_stats d d).users.lookup "change" = some 0
        ∧ (compare_overall_stats d d).conversations.lookup "change" = some 0
        ∧ (compare_overall_stats d d).conversations.lookup "change_pct" = some 0
        ∧ (compare_overall_stats d d).messages.lookup "change" = some 0
        ∧ (compare_overall_stats d d).messages.lookup "change_pct" = some 0)
    ∧ (∀ d1 d2 : DashboardData,
        d1.conversations.length = 0 → d2.conversations.length = 5 →
        (compare_overall_stats d1 d2).conversations.lookup "change_pct"
          = some 100) := by
  have hself : ∀ x : ℚ, calc_change x x = 0 := by
    intro x
    unfold calc_change
    by_cases h : x = 0 <;> simp [h]
  refine ⟨fun d1 d2 => ⟨rfl, rfl⟩, fun d => ?_, fun d1 d2 h1 h2 => ?_⟩
  · refine ⟨?_, ?_, ?_, ?_, ?_⟩
    · have h : (compare_overall_stats d d).users.lookup "change"
          = some ((d.users.length : ℚ) - (d.users.length : ℚ)) := rfl
      rw [h, sub_self]
    · have h : (compare_overall_stats d d).conversations.lookup "change"
          = some ((d.conversations.length : ℚ) - (d.conversations.length : ℚ)) :=
        rfl
      rw [h, sub_self]
    · have h : (compare_overall_stats d d).conversations.lookup "change_pct"
          = some (calc_change (d.conversations.length : ℚ)
              (d.conversations.length : ℚ)) := rfl
      rw [h, hself]
    · have h : (compare_overall_stats d d).messages.lookup "change"
          = some ((d.messages.length : ℚ) - (d.messages.length : ℚ)) := rfl
      rw [h, sub_self]
    · have h : (compare_overall_stats d d).messages.lookup "change_pct"
          = some (calc_change (d.messages.length : ℚ)
              (d.messages.length : ℚ)) := rfl
      rw [h, hself]
  · have h : (compare_overall_stats d1 d2).conversations.lookup "change_pct"
        = some (calc_change (d1.conversations.length : ℚ)
            (d2.conversations.length : ℚ)) := rfl
    rw [h, h1, h2]
    norm_num [calc_change]

/-- Witness for C1: instantiating the zero-baseline part at a snapshot pair
with 0 and 5 conversations yields exactly 100. -/
theorem spec_c1_witness :
    (compare_overall_stats ⟨[], [], [], "before"⟩
      ⟨[],
       [⟨"c1", "n", "", ⟨2025, 1, 1, 0⟩, ⟨2025, 1, 1, 0⟩, "u1", 0⟩,
        ⟨"c2", "n", "", ⟨2025, 1, 1, 0⟩, ⟨2025, 1, 1, 0⟩, "u1", 0⟩,
        ⟨"c3", "n", "", ⟨2025, 1, 1, 0⟩, ⟨2025, 1, 1, 0⟩, "u1", 0⟩,
        ⟨"c4", "n", "", ⟨2025, 1, 1, 0⟩, ⟨2025, 1, 1, 0⟩, "u1", 0⟩,
        ⟨"c5", "n", "", ⟨2025, 1, 1, 0⟩, ⟨2025, 1, 1, 0⟩, "u1", 0⟩],
       [], "after"⟩).conversations.lookup "change_pct" = some 100 :=
  spec_c1_compare_overall_change_pct.2.2 _ _ rfl rfl

/-- C3 counterexample: at a concrete snapshot pair the `users` section of
`compare_overall_stats` has no `change_pct` entry at all (while the
`conversations` section does), so the result does not contain all four
fields for each of the three totals. -/
theorem spec_c3_counterexample :
    (compare_overall_stats ⟨[], [], [], "a"⟩ ⟨[], [], [], "b"⟩).users.lookup
        "change_pct" = none
    ∧ ((compare_overall_stats ⟨[], [], [], "a"⟩
        ⟨[], [], [], "b"⟩).conversations.lookup "change_pct").isSome = true :=
  ⟨rfl, rfl⟩

/-- C3 amended: for every snapshot pair the `conversations` and `messages`
sections carry before/after/change/change_pct, while the `users` section
carries only before/after/change — the users percent change is absent. -/
theorem spec_c3_amended_field_inventory (d1 d2 : DashboardData) :
    (compare_overall_stats d1 d2).users.map Prod.fst
      = ["before", "after", "change"]
    ∧ (compare_overall_stats d1 d2).conversations.map Prod.fst
      = ["before", "after", "change", "change_pct"]
    ∧ (compare_overall_stats d1 d2).messages.map Prod.fst
      = ["before", "after", "change", "change_pct"] :=
  ⟨rfl, rfl, rfl⟩

/-- C4 counterexample: a message dated 2024-12-30 belongs to ISO week 1 of
ISO year 2025, but `get_weekly_usage` buckets it under (2024, 1) — the
calendar year with the adjacent ISO year's week number — so messages are not
grouped by ISO calendar year. -/
theorem spec_c4_counterexample :
    get_weekly_usage
      ⟨[⟨"u1", "Alice", "a@x"⟩], [],
       [⟨"m1", "c1", "u1", "human", some "hello", ⟨2024, 12, 30, 0⟩,
         false, false⟩], "snap"⟩
      = [⟨2024, 1, 1, 1⟩]
    ∧ Timestamp.isoYear ⟨2024, 12, 30, 0⟩ = 2025
    ∧ Timestamp.isoWeek ⟨2024, 12, 30, 0⟩ = 1 :=
  ⟨rfl, rfl, rfl⟩

/-- C5 counterexample: a snapshot with a non-empty conversations table (one
zero-turn conversation owned by `u1`) and no messages.  `get_user_summary`
keeps the zero-activity user `u0`'s row with explicit zeros for the
conversation and message totals, but the row has no human-message or
assistant-message count whatsoever — with no messages in the snapshot those
sender columns do not exist, so the claimed explicit zeros for them are
absent. -/
theorem spec_c5_counterexample :
    get_user_summary
      ⟨[⟨"u0", "Zero User", "z@x"⟩, ⟨"u1", "Alice", "a@x"⟩],
       [⟨"c1", "chat", "", ⟨2025, 1, 1, 0⟩, ⟨2025, 1, 1, 0⟩, "u1", 0⟩],
       [], "snap"⟩
      = [⟨"u0", "Zero User", 0, 0, []⟩, ⟨"u1", "Alice", 1, 0, []⟩]
    ∧ (get_user_summary
      ⟨[⟨"u0", "Zero User", "z@x"⟩, ⟨"u1", "Alice", "a@x"⟩],
       [⟨"c1", "chat", "", ⟨2025, 1, 1, 0⟩, ⟨2025, 1, 1, 0⟩, "u1", 0⟩],
       [], "snap"⟩).map
        (fun r => r.senders.lookup "human") = [none, none]
    ∧ (get_user_summary
      ⟨[⟨"u0", "Zero User", "z@x"⟩, ⟨"u1", "Alice", "a@x"⟩],
       [⟨"c1", "chat", "", ⟨2025, 1, 1, 0⟩, ⟨2025, 1, 1, 0⟩, "u1", 0⟩],
       [], "snap"⟩).map
        (fun r => r.senders.lookup "assistant") = [none, none] :=
  ⟨rfl, rfl, rfl⟩

/-- C10: passing the empty string as the user restriction is identical to
passing no user at all — Python's truthiness test `if user_uuid:` skips the
filter for the empty string. -/
theorem spec_c10_empty_user_filter (d : DashboardData) (q : String) :
    search_conversations d q (some "") = search_conversations d q none := rfl

/-- C9: `get_inactive_users` returns exactly the rows of the "before" user
table whose identifier sent at least one "before" message and no "after"
message; in the spec's concrete scenario (user 1 messaged only before, user
2 messaged in both) the result is exactly user 1. -/
theorem spec_c9_inactive_users :
    (∀ (d1 d2 : DashboardData) (u : UserRow),
      u ∈ get_inactive_users d1 d2 ↔
        u ∈ d1.users
        ∧ (∃ m ∈ d1.messages, m.user_uuid = u.user_uuid)
        ∧ ¬ (∃ m ∈ d2.messages, m.user_uuid = u.user_uuid))
    ∧ get_inactive_users
        ⟨[⟨"1", "User One", "one@x"⟩, ⟨"2", "User Two", "two@x"⟩], [],
         [⟨"mA1", "cA1", "1", "human", some "hi", ⟨2025, 1, 1, 0⟩, false, false⟩,
          ⟨"mA2", "cA2", "2", "human", some "yo", ⟨2025, 1, 2, 0⟩, false, false⟩],
         "A"⟩
        ⟨[⟨"1", "User One", "one@x"⟩, ⟨"2", "User Two", "two@x"⟩], [],
         [⟨"mB1", "cB1", "2", "human", some "ok", ⟨2025, 2, 1, 0⟩, false, false⟩],
         "B"⟩
      = [⟨"1", "User One", "one@x"⟩] := by
  constructor
  · intro d1 d2 u
    unfold get_inactive_users
    rw [List.mem_filter]
    simp [List.any_eq_true]
  · rfl

/-- C6: for any loaded snapshot whose user identifiers are unique and whose
conversations all reference a user of the user table (the assumed
referential integrity), the summary's `total_messages` column sums to
`get_overall_stats`'s `total_messages` — the row count of the message
table.  The link holds because the loader sets each conversation's
`message_count` to the number of chat turns it flattens into the message
table. -/
theorem spec_c6_total_messages_sum (users : List UserRow) (raw : List ConvJson)
    (name : String)
    (hnodup : (users.map (·.user_uuid)).Nodup)
    (hri : ∀ c ∈ raw, c.account_uuid ∈ users.map (·.user_uuid)) :
    ((get_user_summary (mk_snapshot users raw name)).map (·.total_messages)).sum
      = (get_overall_stats (mk_snapshot users raw name)).total_messages := by
  have hL : ((get_user_summary (mk_snapshot users raw name)).map
        (·.total_messages))
      = users.map (fun u =>
          (((load_conversations raw).1.filter
            (fun c => c.user_uuid == u.user_uuid)).map (·.message_count)).sum) := by
    unfold get_user_summary mk_snapshot
    rw [List.map_map]
    rfl
  rw [hL,
    show (get_overall_stats (mk_snapshot users raw name)).total_messages
      = ((load_conversations raw).2).length from rfl]
  have hsub : ∀ c ∈ (load_conversations raw).1,
      c.user_uuid ∈ users.map (·.user_uuid) := by
    intro c hc
    unfold load_conversations at hc
    rcases List.mem_map.mp hc with ⟨cj, hcj, hce⟩
    rw [← hce]
    exact hri cj hcj
  rw [sum_partition users (load_conversations raw).1 hnodup hsub]
  unfold load_conversations
  rw [List.map_map, List.length_flatMap]
  apply congrArg
  apply List.map_congr_left
  intro c _
  simp

/-- Witness for C6 at a concrete two-user snapshot: one conversation with
two chat turns plus one with one chat turn gives a summary column summing
to the three loaded message rows. -/
theorem spec_c6_witness :
    ((get_user_summary (mk_snapshot
        [⟨"u1", "Alice", "a@x"⟩, ⟨"u2", "Bob", "b@x"⟩]
        [⟨"c1", "chat", "", "u1", ⟨2025, 1, 1, 0⟩, ⟨2025, 1, 1, 0⟩,
          [⟨"m1", "human", "hi", [], ⟨2025, 1, 1, 10⟩, 0, 0⟩,
           ⟨"m2", "assistant", "hello", [], ⟨2025, 1, 1, 20⟩, 0, 0⟩]⟩,
         ⟨"c2", "chat2", "", "u2", ⟨2025, 1, 2, 0⟩, ⟨2025, 1, 2, 0⟩,
          [⟨"m3", "human", "yo", [], ⟨2025, 1, 2, 10⟩, 0, 0⟩]⟩]
        "snap")).map (·.total_messages)).sum
      = (get_overall_stats (mk_snapshot
        [⟨"u1", "Alice", "a@x"⟩, ⟨"u2", "Bob", "b@x"⟩]
        [⟨"c1", "chat", "", "u1", ⟨2025, 1, 1, 0⟩, ⟨2025, 1, 1, 0⟩,
          [⟨"m1", "human", "hi", [], ⟨2025, 1, 1, 10⟩, 0, 0⟩,
           ⟨"m2", "assistant", "hello", [], ⟨2025, 1, 1, 20⟩, 0, 0⟩]⟩,
         ⟨"c2", "chat2", "", "u2", ⟨2025, 1, 2, 0⟩, ⟨2025, 1, 2, 0⟩,
          [⟨"m3", "human", "yo", [], ⟨2025, 1, 2, 10⟩, 0, 0⟩]⟩]
        "snap")).total_messages :=
  spec_c6_total_messages_sum _ _ "snap" (by decide) (by decide)

/-- C2: `compare_user_summary` left-joins the "before" per-user summary onto
the "after" one by user identifier (one output row per "after" row, in
order); a user present in "before" gets the plain difference in the change
columns and the `((after - before) / before) * 100` percent change when the
"before" message count is positive and exactly 0 otherwise; a user absent
from "before" gets `none` previous values, changes equal to the raw "after"
counts (missing "before" treated as 0), and percent change exactly 0. -/
theorem spec_c2_compare_user_summary (d1 d2 : DashboardData)
    (h1 : (d1.users.map (·.user_uuid)).Nodup) :
    ((compare_user_summary d1 d2).map (·.user_uuid)
        = (get_user_summary d2).map (·.user_uuid))
    ∧ (∀ row ∈ compare_user_summary d1 d2,
        match (get_user_summary d1).find?
            (fun r => r.user_uuid == row.user_uuid) with
        | some r1 =>
            row.total_conversations_prev = some r1.total_conversations
            ∧ row.total_messages_prev = some r1.total_messages
            ∧ row.conversations_change
              = (row.total_conversations : ℚ) - (r1.total_conversations : ℚ)
            ∧ row.messages_change
              = (row.total_messages : ℚ) - (r1.total_messages : ℚ)
            ∧ row.messages_change_pct
              = (if 0 < (r1.total_messages : ℚ) then
                  (((row.total_messages : ℚ) - (r1.total_messages : ℚ))
                    / (r1.total_messages : ℚ)) * 100
                 else 0)
        | none =>
            row.total_conversations_prev = none
            ∧ row.total_messages_prev = none
            ∧ row.conversations_change = (row.total_conversations : ℚ)
            ∧ row.messages_change = (row.total_messages : ℚ)
            ∧ row.messages_change_pct = 0) := by
  have hnd : ((get_user_summary d1).map (·.user_uuid)).Nodup := by
    rw [user_summary_map_uuid]; exact h1
  have hmerge := leftMergeOn_eq_map_find? (·.user_uuid) (·.user_uuid)
      (get_user_summary d2) (get_user_summary d1) hnd
  constructor
  · unfold compare_user_summary
    dsimp only
    rw [hmerge, List.map_map, List.map_map]
    rfl
  · intro row hrow
    unfold compare_user_summary at hrow
    dsimp only at hrow
    rw [hmerge, List.map_map] at hrow
    rcases List.mem_map.mp hrow with ⟨r2, _, hre⟩
    subst hre
    cases hf : (get_user_summary d1).find? (fun r => r.user_uuid == r2.user_uuid) with
    | none =>
      show match (get_user_summary d1).find?
          (fun r => r.user_uuid == r2.user_uuid) with
        | some _ => _
        | none => _
      rw [hf]
      refine ⟨?_, ?_, ?_, ?_, ?_⟩
      · show Option.map (·.total_conversations)
            ((get_user_summary d1).find?
              (fun r => r.user_uuid == r2.user_uuid)) = none
        rw [hf]; rfl
      · show Option.map (·.total_messages)
            ((get_user_summary d1).find?
              (fun r => r.user_uuid == r2.user_uuid)) = none
        rw [hf]; rfl
      · show (r2.total_conversations : ℚ)
            - ((Option.map (·.total_conversations)
                ((get_user_summary d1).find?
                  (fun r => r.user_uuid == r2.user_uuid))).getD 0 : Nat)
          = (r2.total_conversations : ℚ)
        rw [hf]
        norm_num
      · show (r2.total_messages : ℚ)
            - ((Option.map (·.total_messages)
                ((get_user_summary d1).find?
                  (fun r => r.user_uuid == r2.user_uuid))).getD 0 : Nat)
          = (r2.total_messages : ℚ)
        rw [hf]
        norm_num
      · show ((match (Option.map (·.total_messages)
            ((get_user_summary d1).find?
              (fun r => r.user_uuid == r2.user_uuid)) : Option Nat) with
          | some q => if (q : ℚ) > 0 then
              (((r2.total_messages : ℚ) - (q : ℚ)) / (q : ℚ)) * 100 else 0
          | none => 0) : ℚ) = 0
        rw [hf]; rfl
    | some r1 =>
      show match (get_user_summary d1).find?
          (fun r => r.user_uuid == r2.user_uuid) with
        | some _ => _
        | none => _
      rw [hf]
      refine ⟨?_, ?_, ?_, ?_, ?_⟩
      · show Option.map (·.total_conversations)
            ((get_user_summary d1).find?
              (fun r => r.user_uuid == r2.user_uuid))
          = some r1.total_conversations
        rw [hf]; rfl
      · show Option.map (·.total_messages)
            ((get_user_summary d1).find?
              (fun r => r.user_uuid == r2.user_uuid))
          = some r1.total_messages
        rw [hf]; rfl
      · show (r2.total_conversations : ℚ)
            - ((Option.map (·.total_conversations)
                ((get_user_summary d1).find?
                  (fun r => r.user_uuid == r2.user_uuid))).getD 0 : Nat)
          = (r2.total_conversations : ℚ) - (r1.total_conversations : ℚ)
        rw [hf]; rfl
      · show (r2.total_messages : ℚ)
            - ((Option.map (·.total_messages)
                ((get_user_summary d1).find?
                  (fun r => r.user_uuid == r2.user_uuid))).getD 0 : Nat)
          = (r2.total_messages : ℚ) - (r1.total_messages : ℚ)
        rw [hf]; rfl
      · show (match Option.map (·.total_messages)
            ((get_user_summary d1).find?
              (fun r => r.user_uuid == r2.user_uuid)) with
          | some q => if (q : ℚ) > 0 then
              (((r2.total_messages : ℚ) - (q : ℚ)) / (q : ℚ)) * 100 else 0
          | none => 0)
          = (if 0 < (r1.total_messages : ℚ) then
              (((r2.total_messages : ℚ) - (r1.total_messages : ℚ))
                / (r1.total_messages : ℚ)) * 100
             else 0)
        rw [hf]; rfl

/-- Witness for C2 at a concrete pair: before has users u1 (2 messages) and
u3; after has u1 (5 messages) and u2 (new). -/
theorem spec_c2_witness :
    ((compare_user_summary
        ⟨[⟨"u1", "Alice", "a@x"⟩, ⟨"u3", "Carol", "c@x"⟩],
         [⟨"cA", "t", "", ⟨2025, 1, 1, 0⟩, ⟨2025, 1, 1, 0⟩, "u1", 2⟩], [], "A"⟩
        ⟨[⟨"u1", "Alice", "a@x"⟩, ⟨"u2", "Bob", "b@x"⟩],
         [⟨"cB", "t", "", ⟨2025, 2, 1, 0⟩, ⟨2025, 2, 1, 0⟩, "u1", 5⟩], [], "B"⟩).map
      (·.user_uuid))
      = ["u1", "u2"] :=
  (spec_c2_compare_user_summary _ _ (by decide)).1

/-- Boolean equality on pairs of naturals is componentwise. -/
theorem prod_beq_nat (a b : Nat × Nat) : (a == b) = (a.1 == b.1 && a.2 == b.2) := by
  cases a; cases b; rfl

/-- C5 amended: for a snapshot whose conversations table is non-empty (an
empty one has no `user_uuid` column and makes the source raise `KeyError`
instead of returning rows), every user row survives into
`get_user_summary` (same identifiers, same order); a user with no
conversations and no messages gets explicit zeros for the conversation
count and message total, and the row carries one entry per sender column of
the frame — each an explicit 0 for such a user; a sender column exists
exactly when some message of the snapshot has that sender, so
`human`/`assistant` zeros are present exactly when those columns exist. -/
theorem spec_c5_amended_user_summary (d : DashboardData)
    (_hconv : d.conversations ≠ []) :
    ((get_user_summary d).map (·.user_uuid) = d.users.map (·.user_uuid))
    ∧ (∀ r ∈ get_user_summary d,
        (∀ c ∈ d.conversations, c.user_uuid ≠ r.user_uuid) →
        (∀ m ∈ d.messages, m.user_uuid ≠ r.user_uuid) →
          r.total_conversations = 0
          ∧ r.total_messages = 0
          ∧ r.senders.map Prod.fst = senderColumns d
          ∧ (∀ s, r.senders.lookup s
              = if s ∈ senderColumns d then some 0 else none)) := by
  refine ⟨user_summary_map_uuid d, ?_⟩
  intro r hr hc hm
  unfold get_user_summary at hr
  rcases List.mem_map.mp hr with ⟨u, _, hre⟩
  subst hre
  have hcf : d.conversations.filter (fun c => c.user_uuid == u.user_uuid) = [] := by
    apply List.filter_eq_nil_iff.mpr
    intro c hcmem hcu
    exact (hc c hcmem) (by simpa using hcu)
  have hmf : ∀ s, d.messages.filter
      (fun m => m.user_uuid == u.user_uuid && m.sender == s) = [] := by
    intro s
    apply List.filter_eq_nil_iff.mpr
    intro m hmmem hmb
    have hmb' : (m.user_uuid == u.user_uuid) = true ∧ (m.sender == s) = true := by
      simpa using hmb
    exact (hm m hmmem) (by simpa using hmb'.1)
  refine ⟨?_, ?_, ?_, ?_⟩
  · show (d.conversations.filter (fun c => c.user_uuid == u.user_uuid)).length = 0
    rw [hcf]; rfl
  · show ((d.conversations.filter
        (fun c => c.user_uuid == u.user_uuid)).map (·.message_count)).sum = 0
    rw [hcf]; rfl
  · show ((senderColumns d).map (fun s =>
        (s, (d.messages.filter
          (fun m => m.user_uuid == u.user_uuid && m.sender == s)).length))).map
        Prod.fst = senderColumns d
    rw [List.map_map]
    exact List.map_id _
  · intro s
    show ((senderColumns d).map (fun c =>
        (c, (d.messages.filter
          (fun m => m.user_uuid == u.user_uuid && m.sender == c)).length))).lookup s
      = _
    rw [lookup_map_pair]
    by_cases hs : s ∈ senderColumns d
    · rw [if_pos hs, if_pos hs, hmf s]; rfl
    · rw [if_neg hs, if_neg hs]

/-- Witness for C5 amended at `c5D`: the zero-activity row holds explicit
zeros, including in the `human` sender column. -/
theorem spec_c5_witness :
    c5row.total_conversations = 0 ∧ c5row.total_messages = 0
    ∧ c5row.senders.lookup "human"
      = (if "human" ∈ senderColumns c5D then some 0 else none) := by
  have h := (spec_c5_amended_user_summary c5D (by decide)).2 c5row (by decide)
    (by decide) (by decide)
  exact ⟨h.1, h.2.1, h.2.2.2 "human"⟩

/-- C4 amended: for a snapshot with at least one message, `get_weekly_usage`
buckets messages by (calendar year, ISO week number): a (year, week) bucket
exists iff some message carries exactly that key, and each row counts the
messages and the distinct senders with that key. -/
theorem spec_c4_amended_weekly (d : DashboardData) (hne : d.messages ≠ []) :
    (∀ y w, ((∃ r ∈ get_weekly_usage d, r.year = y ∧ r.week = w) ↔
        ∃ m ∈ d.messages, m.created_at.year = y ∧ m.created_at.isoWeek = w))
    ∧ (∀ r ∈ get_weekly_usage d,
        r.messages = (d.messages.filter (fun m =>
            m.created_at.year == r.year && m.created_at.isoWeek == r.week)).length
        ∧ r.active_users = (dedupByKey id ((d.messages.filter (fun m =>
            m.created_at.year == r.year && m.created_at.isoWeek == r.week)).map
              (·.user_uuid))).length) := by
  have hne' : d.messages.isEmpty = false := by
    cases hmsg : d.messages with
    | nil => exact absurd hmsg hne
    | cons a as => rfl
  have hrows : get_weekly_usage d
      = (sortByLe pairLe (dedupByKey id (d.messages.map weeklyKey))).map
          (fun k =>
            { year := k.1
              week := k.2
              messages := (d.messages.filter (fun m => weeklyKey m == k)).length
              active_users := (dedupByKey id
                ((d.messages.filter (fun m => weeklyKey m == k)).map
                  (·.user_uuid))).length }) := by
    unfold get_weekly_usage
    rw [hne']
    rfl
  have hkeys_mem : ∀ k : Nat × Nat,
      k ∈ sortByLe pairLe (dedupByKey id (d.messages.map weeklyKey))
        ↔ k ∈ d.messages.map weeklyKey := by
    intro k
    rw [mem_sortByLe]
    have h := mem_map_key_dedupByKey (id : Nat × Nat → Nat × Nat)
      (d.messages.map weeklyKey) k
    simpa using h
  constructor
  · intro y w
    rw [hrows]
    constructor
    · rintro ⟨r, hr, hy, hw⟩
      rcases List.mem_map.mp hr with ⟨k, hk, hre⟩
      subst hre
      rcases List.mem_map.mp ((hkeys_mem k).mp hk) with ⟨m, hm, hkm⟩
      exact ⟨m, hm, (congrArg Prod.fst hkm).trans hy,
        (congrArg Prod.snd hkm).trans hw⟩
    · rintro ⟨m, hm, hy, hw⟩
      exact ⟨_, List.mem_map.mpr ⟨weeklyKey m,
        (hkeys_mem _).mpr (List.mem_map.mpr ⟨m, hm, rfl⟩), rfl⟩, hy, hw⟩
  · intro r hr
    rw [hrows] at hr
    rcases List.mem_map.mp hr with ⟨k, _, hre⟩
    subst hre
    have hfil : d.messages.filter (fun m => weeklyKey m == k)
        = d.messages.filter (fun m =>
            m.created_at.year == k.1 && m.created_at.isoWeek == k.2) := by
      apply List.filter_congr
      intro m _
      show (weeklyKey m == k) = _
      rw [prod_beq_nat]
      rfl
    constructor
    · show (d.messages.filter (fun m => weeklyKey m == k)).length = _
      rw [hfil]
    · show (dedupByKey id ((d.messages.filter
          (fun m => weeklyKey m == k)).map (·.user_uuid))).length = _
      rw [hfil]

/-- Witness for C4 amended at `c4D`: the (2024, 1) row's message count is
the count of messages keyed (calendar year 2024, ISO week 1). -/
theorem spec_c4_amended_witness :
    (⟨2024, 1, 1, 1⟩ : WeeklyRow).messages
      = (c4D.messages.filter (fun m =>
          m.created_at.year == (⟨2024, 1, 1, 1⟩ : WeeklyRow).year
          && m.created_at.isoWeek == (⟨2024, 1, 1, 1⟩ : WeeklyRow).week)).length := by
  have h := (spec_c4_amended_weekly c4D (by decide)).2 ⟨2024, 1, 1, 1⟩ (by decide)
  exact h.1

/-- C8: the cumulative merge processes snapshots in folder-name-descending
(newest-first) order, deduplicates each table on its identifier so every key
occurs at most once, retains for each key exactly the first-seen row of the
newest-first concatenation, and keeps rows whose key appears only in an
older snapshot. -/
theorem spec_c8_cumulative_dedup (snaps : List (String × DashboardData))
    (hne : snaps ≠ []) :
    ∃ r, load_cumulative_data snaps = some r
      ∧ ((r.users.map (fun p => p.1.user_uuid)).Nodup
         ∧ (r.conversations.map (fun p => p.1.conv_uuid)).Nodup
         ∧ (r.messages.map (fun p => p.1.msg_uuid)).Nodup)
      ∧ ((∀ p, p ∈ r.users ↔
            ((sortByLe nameDescLe snaps).flatMap
              (fun f => f.2.users.map (fun u => (u, f.1)))).find?
                (fun q => q.1.user_uuid == p.1.user_uuid) = some p)
         ∧ (∀ p, p ∈ r.conversations ↔
            ((sortByLe nameDescLe snaps).flatMap
              (fun f => f.2.conversations.map (fun c => (c, f.1)))).find?
                (fun q => q.1.conv_uuid == p.1.conv_uuid) = some p)
         ∧ (∀ p, p ∈ r.messages ↔
            ((sortByLe nameDescLe snaps).flatMap
              (fun f => f.2.messages.map (fun m => (m, f.1)))).find?
                (fun q => q.1.msg_uuid == p.1.msg_uuid) = some p))
      ∧ (List.Chain' (fun a b => nameDescLe a b = true)
            (sortByLe nameDescLe snaps)
         ∧ (sortByLe nameDescLe snaps).Perm snaps)
      ∧ (∀ k, (∃ s ∈ snaps, ∃ u ∈ s.2.users, u.user_uuid = k)
            ↔ ∃ p ∈ r.users, p.1.user_uuid = k) := by
  have hne' : snaps.isEmpty = false := by
    cases hs : snaps with
    | nil => exact absurd hs hne
    | cons a as => rfl
  have hload : load_cumulative_data snaps = some
      ⟨dedupByKey (fun p => p.1.user_uuid)
          ((sortByLe nameDescLe snaps).flatMap
            (fun f => f.2.users.map (fun u => (u, f.1)))),
       dedupByKey (fun p => p.1.conv_uuid)
          ((sortByLe nameDescLe snaps).flatMap
            (fun f => f.2.conversations.map (fun c => (c, f.1)))),
       dedupByKey (fun p => p.1.msg_uuid)
          ((sortByLe nameDescLe snaps).flatMap
            (fun f => f.2.messages.map (fun m => (m, f.1)))),
       "전체 누적"⟩ := by
    unfold load_cumulative_data
    rw [hne']
    rfl
  have htot : ∀ a b : String × DashboardData,
      nameDescLe a b = true ∨ nameDescLe b a = true := by
    intro a b
    unfold nameDescLe
    by_cases h : a.1 < b.1
    · right
      simp [asymm h]
    · left
      simp [h]
  refine ⟨_, hload, ⟨?_, ?_, ?_⟩, ⟨?_, ?_, ?_⟩, ⟨?_, ?_⟩, ?_⟩
  · exact nodup_map_key_dedupByKey _ _
  · exact nodup_map_key_dedupByKey _ _
  · exact nodup_map_key_dedupByKey _ _
  · exact fun p => mem_dedupByKey_iff_find? _ _ p
  · exact fun p => mem_dedupByKey_iff_find? _ _ p
  · exact fun p => mem_dedupByKey_iff_find? _ _ p
  · exact chain'_sortByLe nameDescLe htot snaps
  · exact perm_sortByLe nameDescLe snaps
  · intro k
    constructor
    · rintro ⟨s, hs, u, hu, huk⟩
      have hmem : (u, s.1) ∈ (sortByLe nameDescLe snaps).flatMap
          (fun f => f.2.users.map (fun v => (v, f.1))) :=
        List.mem_flatMap.mpr ⟨s,
          (perm_sortByLe nameDescLe snaps).mem_iff.mpr hs,
          List.mem_map.mpr ⟨u, hu, rfl⟩⟩
      have hkey : k ∈ (dedupByKey (fun p : UserRow × String => p.1.user_uuid)
          ((sortByLe nameDescLe snaps).flatMap
            (fun f => f.2.users.map (fun v => (v, f.1))))).map
          (fun p => p.1.user_uuid) := by
        rw [mem_map_key_dedupByKey]
        exact List.mem_map.mpr ⟨(u, s.1), hmem, huk⟩
      rcases List.mem_map.mp hkey with ⟨p, hp, hpk⟩
      exact ⟨p, hp, hpk⟩
    · rintro ⟨p, hp, hpk⟩
      have hmem := dedupByKey_subset _ _ hp
      rcases List.mem_flatMap.mp hmem with ⟨f, hf, hpf⟩
      rcases List.mem_map.mp hpf with ⟨u, hu, hue⟩
      refine ⟨f, (perm_sortByLe nameDescLe snaps).mem_iff.mp hf, u, hu, ?_⟩
      rw [← hue] at hpk
      exact hpk

/-- Witness for C8: two snapshots sharing user `u1`; the merge keeps the
`u1` row of the newer snapshot and the `u2` row that exists only in the
older snapshot. -/
theorem spec_c8_witness :
    ∃ r, load_cumulative_data
        [("data-2025-01", ⟨[⟨"u1", "Old Alice", "a@x"⟩, ⟨"u2", "Bob", "b@x"⟩],
            [], [], "data-2025-01"⟩),
         ("data-2025-02", ⟨[⟨"u1", "New Alice", "a@x"⟩], [], [],
            "data-2025-02"⟩)] = some r
      ∧ ((r.users.map (fun p => p.1.user_uuid)).Nodup
         ∧ (r.conversations.map (fun p => p.1.conv_uuid)).Nodup
         ∧ (r.messages.map (fun p => p.1.msg_uuid)).Nodup) := by
  rcases spec_c8_cumulative_dedup
    [("data-2025-01", ⟨[⟨"u1", "Old Alice", "a@x"⟩, ⟨"u2", "Bob", "b@x"⟩],
        [], [], "data-2025-01"⟩),
     ("data-2025-02", ⟨[⟨"u1", "New Alice", "a@x"⟩], [], [],
        "data-2025-02"⟩)] (by decide) with ⟨r, hr, hnd, _⟩
  exact ⟨r, hr, hnd⟩

end Dashboard
